import Mathlib

/-!
Shallow embedding of the grid cooling-simulation engine of this repository:
the two variants `MeatTemp/meat_temp.py` and `ThawMaster/thaw_master.py`.

Both variants share the same structure: a Newton's-law-of-cooling right-hand
side `model`, a trajectory produced by `scipy.integrate.odeint` over
`np.linspace(0, SIM_LEN, SIM_STEPS)`, a first-hit threshold scan, and a
`perform_simulation` sweep that meshgrids two coordinate sequences, flattens
the pairs, maps `sim_temp_change` over them with a process pool, and writes
the results back into a 2-D grid by row-major unravelling of the flat index.

The `odeint` call is embedded as the exact closed-form solution of the linear
ODE defined by `model`; the lemma `coolingSol_hasDerivAt` proves that the
embedded solution really does solve that ODE with the right initial value.
The float `NaN` / Python `None` "not reached" sentinel is embedded as `none`
of an `Option ℝ`.
-/

namespace CoolSim

/-- Newton's law of cooling right-hand side, from `model` in both source
files: `-k * (T - room_temp)`.  The time argument is unused, exactly as in
the source (generic ODE-solver calling convention). -/
def model (T t k room_temp : ℝ) : ℝ := -k * (T - room_temp)

/-- `np.linspace a b n`: `n` evenly spaced samples from `a` to `b`,
endpoints included (`t = np.linspace(0, SIM_LEN, SIM_STEPS)` in the source). -/
noncomputable def linspace (a b : ℝ) (n : ℕ) : List ℝ :=
  (List.range n).map (fun i : ℕ => a + (b - a) * (i : ℝ) / ((n : ℝ) - 1))

/-- Exact solution of the cooling ODE `dT/dt = model T t k room` with
initial value `T 0 = T0`. -/
noncomputable def coolingSol (k room T0 t : ℝ) : ℝ :=
  room + (T0 - room) * Real.exp (-k * t)

/-- Embedding of `odeint(model, init_temp, t, args=(k_value, target))` from
`sim_temp_change`: the integrated equation is linear, so the solver's output
is the exact solution `coolingSol` sampled at the requested times. -/
noncomputable def odeint (T0 : ℝ) (ts : List ℝ) (k target : ℝ) : List ℝ :=
  ts.map (coolingSol k target T0)

/-- The detection loop of `sim_temp_change`:
`for i in range(T.shape[0]): if <predicate on T[i]>: time_to_cool = t[i]; break`,
returning `none` when the loop never breaks. -/
noncomputable def firstHit (p : ℝ → Prop) [DecidablePred p] :
    List (ℝ × ℝ) → Option ℝ
  | [] => none
  | (t, T) :: rest => if p T then some t else firstHit p rest

/-- MeatTemp's threshold scan: strict comparison `abs(T[i] - room_temp) < 1`,
with the tolerance generalized to a parameter. -/
noncomputable def firstWithin (tol target : ℝ) (l : List (ℝ × ℝ)) : Option ℝ :=
  firstHit (fun T => |T - target| < tol) l

/-- ThawMaster's threshold scan: `abs(T[i] - room_temp) <= 0.01`, with the
tolerance generalized to a parameter. -/
noncomputable def firstWithinLe (tol target : ℝ) (l : List (ℝ × ℝ)) : Option ℝ :=
  firstHit (fun T => |T - target| ≤ tol) l

/-- `np.meshgrid(A, B)` with the default `xy` indexing: two grids of shape
`(len B, len A)` with `X[i][j] = A[j]` and `Y[i][j] = B[i]`. -/
def meshgrid (A B : List ℝ) : List (List ℝ) × List (List ℝ) :=
  (B.map (fun _ => A), B.map (fun b => A.map (fun _ => b)))

/-- Row-major `.ravel()` of a nested-list grid. -/
def ravel (g : List (List ℝ)) : List ℝ := g.flatten

/-- The flat work list `zip(init_grid.ravel(), room_grid.ravel())` built by
`perform_simulation`. -/
def pairsFlat (A B : List ℝ) : List (ℝ × ℝ) :=
  (ravel (meshgrid A B).1).zip (ravel (meshgrid A B).2)

/-- The result-grid assembly of `perform_simulation`:
`time_grid = np.zeros_like(init_grid)` followed by
`time_grid[np.unravel_index(i, shape)] = results[i]` for every flat index,
with `(row, col) = (i / N, i % N)` for shape `(M, N)`.  Cells a too-short
result list would leave untouched keep the `zeros_like` fill `some 0`. -/
noncomputable def unravelFill (M N : ℕ) (res : List (Option ℝ)) :
    List (List (Option ℝ)) :=
  (List.range M).map (fun i => (List.range N).map (fun j => res.getD (i * N + j) (some 0)))

/-- Read cell `(i, j)` of a nested-list grid (out-of-range reads fall back to
the `zeros_like` fill value). -/
noncomputable def cellAt (g : List (List (Option ℝ))) (i j : ℕ) : Option ℝ :=
  (g.getD i []).getD j (some 0)

/-- Pool execution model for `multiprocessing.Pool.starmap`: a schedule lists
the order in which workers pick up flat work items; each completion is tagged
with its input index. -/
def runOnPool {α β : Type} (f : α → β) (inputs : List α) (d : α) (sched : List ℕ) :
    List (ℕ × β) :=
  sched.map (fun i => (i, f (inputs.getD i d)))

/-- Gather tagged worker completions back into input order, as `starmap`
does before returning. -/
def collect {β : Type} (n : ℕ) (outs : List (ℕ × β)) : List (Option β) :=
  (List.range n).map (fun k => (outs.find? (fun q => q.1 == k)).map Prod.snd)

namespace MeatTemp

/-- `SPEC_HEAT_CAP = 4.0` (J/g°C). -/
noncomputable def SPEC_HEAT_CAP : ℝ := 4.0

/-- `DENS = 1.04` (g/cm³). -/
noncomputable def DENS : ℝ := 1.04

/-- `W = 4.0` (cm). -/
noncomputable def W : ℝ := 4.0

/-- `L = 6.0` (cm). -/
noncomputable def L : ℝ := 6.0

/-- `H = 3.0` (cm). -/
noncomputable def H : ℝ := 3.0

/-- `CONV_HEAT_TRANS_COEF = 10.0` (W/m²K). -/
noncomputable def CONV_HEAT_TRANS_COEF : ℝ := 10.0

/-- `ROOM_TEMP = 20.0` (°C). -/
noncomputable def ROOM_TEMP : ℝ := 20.0

/-- `SIM_LEN = 10000.0` (seconds). -/
noncomputable def SIM_LEN : ℝ := 10000.0

/-- `SIM_STEPS = 1000`. -/
def SIM_STEPS : ℕ := 1000

/-- `VOLUME = W * L * H`. -/
noncomputable def VOLUME : ℝ := W * L * H

/-- `MASS = VOLUME * DENS`. -/
noncomputable def MASS : ℝ := VOLUME * DENS

/-- `SURF_AREA = 2 * ((W * L + W * H + L * H) / 10000)`. -/
noncomputable def SURF_AREA : ℝ := 2 * ((W * L + W * H + L * H) / 10000)

/-- The local `k_value` computed inside `sim_temp_change`. -/
noncomputable def k_value : ℝ := CONV_HEAT_TRANS_COEF * SURF_AREA / (MASS * SPEC_HEAT_CAP)

/-- MeatTemp's `sim_temp_change(init_temp, room_temp, room_temp_target)`:
solves the ODE toward `room_temp_target`, then scans for the first sample
with `abs(T[i] - room_temp) < 1`, returning
`(init_temp, room_temp, time_to_cool)` with `none` when the loop never
breaks (Python `None`). -/
noncomputable def sim_temp_change (init_temp room_temp room_temp_target : ℝ) :
    ℝ × ℝ × Option ℝ :=
  (init_temp, room_temp,
    firstWithin 1 room_temp
      ((linspace 0 SIM_LEN SIM_STEPS).zip
        (odeint init_temp (linspace 0 SIM_LEN SIM_STEPS) k_value room_temp_target)))

/-- MeatTemp's `perform_simulation`: meshgrid, flat work list
`(init_temp, room_temp, ROOM_TEMP)` (note the constant solve target),
`starmap sim_temp_change`, then row-major unravel into `time_grid`. -/
noncomputable def perform_simulation (A B : List ℝ) : List (List (Option ℝ)) :=
  unravelFill B.length A.length
    ((((pairsFlat A B).map (fun p => (p.1, p.2, ROOM_TEMP))).map
      (fun x => sim_temp_change x.1 x.2.1 x.2.2)).map (fun r => r.2.2))

/-- MeatTemp's `perform_simulation` with the pool's completion order made
explicit: the same flat work list executed under an arbitrary worker
schedule, gathered back into input order before the unravel step. -/
noncomputable def perform_simulation_sched (A B : List ℝ) (sched : List ℕ) :
    List (List (Option ℝ)) :=
  unravelFill B.length A.length
    (((collect ((pairsFlat A B).map (fun p => (p.1, p.2, ROOM_TEMP))).length
        (runOnPool (fun x : ℝ × ℝ × ℝ => sim_temp_change x.1 x.2.1 x.2.2)
          ((pairsFlat A B).map (fun p => (p.1, p.2, ROOM_TEMP))) (0, 0, ROOM_TEMP)
          sched)).map (fun o => (o.getD (0, 0, none)))).map (fun r => r.2.2))

end MeatTemp

namespace ThawMaster

/-- `SPEC_HEAT_CAP = 2.8` (J/g°C). -/
noncomputable def SPEC_HEAT_CAP : ℝ := 2.8

/-- `DENS = 1.04` (g/cm³). -/
noncomputable def DENS : ℝ := 1.04

/-- `W = 4.0` (cm). -/
noncomputable def W : ℝ := 4.0

/-- `L = 6.0` (cm). -/
noncomputable def L : ℝ := 6.0

/-- `H = 3.0` (cm). -/
noncomputable def H : ℝ := 3.0

/-- `CONV_HEAT_TRANS_COEF = 18.0` (W/m²K). -/
noncomputable def CONV_HEAT_TRANS_COEF : ℝ := 18.0

/-- `SIM_LEN = 250000.0` (seconds). -/
noncomputable def SIM_LEN : ℝ := 250000.0

/-- `SIM_STEPS = 10000`. -/
def SIM_STEPS : ℕ := 10000

/-- `VOLUME = W * L * H`. -/
noncomputable def VOLUME : ℝ := W * L * H

/-- `MASS = VOLUME * DENS`. -/
noncomputable def MASS : ℝ := VOLUME * DENS

/-- `SURF_AREA = 2 * ((W * L + W * H + L * H) / 10000)`. -/
noncomputable def SURF_AREA : ℝ := 2 * ((W * L + W * H + L * H) / 10000)

/-- The local `k_value` computed inside ThawMaster's `sim_temp_change`. -/
noncomputable def k_value : ℝ := CONV_HEAT_TRANS_COEF * SURF_AREA / (MASS * SPEC_HEAT_CAP)

/-- ThawMaster's `sim_temp_change(init_temp, room_temp)`: solves the ODE
toward `room_temp`, scans for the first sample with
`abs(T[i] - room_temp) <= 0.01`, and replaces a missing hit by the `NaN`
sentinel — embedded as `none`. -/
noncomputable def sim_temp_change (init_temp room_temp : ℝ) : ℝ × ℝ × Option ℝ :=
  (init_temp, room_temp,
    firstWithinLe 0.01 room_temp
      ((linspace 0 SIM_LEN SIM_STEPS).zip
        (odeint init_temp (linspace 0 SIM_LEN SIM_STEPS) k_value room_temp)))

/-- ThawMaster's `perform_simulation`: meshgrid, flat work list of
`(init_temp, room_temp)` pairs, `starmap sim_temp_change`, then row-major
unravel into `time_grid`. -/
noncomputable def perform_simulation (A B : List ℝ) : List (List (Option ℝ)) :=
  unravelFill B.length A.length
    (((pairsFlat A B).map (fun p => sim_temp_change p.1 p.2)).map (fun r => r.2.2))

/-- ThawMaster's `perform_simulation` with the pool's completion order made
explicit, as in `MeatTemp.perform_simulation_sched`. -/
noncomputable def perform_simulation_sched (A B : List ℝ) (sched : List ℕ) :
    List (List (Option ℝ)) :=
  unravelFill B.length A.length
    (((collect (pairsFlat A B).length
        (runOnPool (fun p : ℝ × ℝ => sim_temp_change p.1 p.2)
          (pairsFlat A B) (0, 0) sched)).map
      (fun o => (o.getD (0, 0, none)))).map (fun r => r.2.2))

end ThawMaster

/-! ### Basic list and linspace lemmas -/

lemma getD_of_lt {α : Type} (l : List α) (d : α) (n : ℕ) (h : n < l.length) :
    l.getD n d = l[n] := by
  simp [List.getD_eq_getElem?_getD, List.getElem?_eq_getElem h]

lemma linspace_length (a b : ℝ) (n : ℕ) : (linspace a b n).length = n := by
  rw [linspace, List.length_map, List.length_range]

lemma linspace_getD (a b : ℝ) (n i : ℕ) (h : i < n) (d : ℝ) :
    (linspace a b n).getD i d = a + (b - a) * i / ((n : ℝ) - 1) := by
  rw [linspace, getD_of_lt _ _ _ (by rw [List.length_map, List.length_range]; exact h),
    List.getElem_map, List.getElem_range]

lemma mem_linspace_iff (a b : ℝ) (n : ℕ) (x : ℝ) :
    x ∈ linspace a b n ↔ ∃ i, i < n ∧ x = a + (b - a) * i / ((n : ℝ) - 1) := by
  rw [linspace]
  constructor
  · intro hx
    obtain ⟨i, hi, rfl⟩ := List.mem_map.1 hx
    exact ⟨i, List.mem_range.1 hi, rfl⟩
  · rintro ⟨i, hi, rfl⟩
    exact List.mem_map.2 ⟨i, List.mem_range.2 hi, rfl⟩

/-! ### firstHit lemmas -/

lemma firstHit_eq_none_iff (p : ℝ → Prop) [DecidablePred p] (l : List (ℝ × ℝ)) :
    firstHit p l = none ↔ ∀ q ∈ l, ¬ p q.2 := by
  induction l with
  | nil => simp [firstHit]
  | cons hd tl ih =>
    obtain ⟨a, b⟩ := hd
    by_cases hp : p b <;> simp [firstHit, hp, ih]

lemma firstHit_mem (p : ℝ → Prop) [DecidablePred p] (l : List (ℝ × ℝ)) (t : ℝ)
    (h : firstHit p l = some t) : ∃ q ∈ l, q.1 = t ∧ p q.2 := by
  induction l with
  | nil => simp [firstHit] at h
  | cons hd tl ih =>
    obtain ⟨a, b⟩ := hd
    by_cases hp : p b
    · simp only [firstHit, if_pos hp, Option.some.injEq] at h
      exact ⟨(a, b), by simp, h, hp⟩
    · simp only [firstHit, if_neg hp] at h
      obtain ⟨q, hq, hq1, hq2⟩ := ih h
      exact ⟨q, by simp [hq], hq1, hq2⟩

lemma firstHit_eq_some_iff (p : ℝ → Prop) [DecidablePred p] (l : List (ℝ × ℝ)) (t : ℝ) :
    firstHit p l = some t ↔
      ∃ i, i < l.length ∧ p (l.getD i (0, 0)).2 ∧
        (∀ j, j < i → ¬ p (l.getD j (0, 0)).2) ∧ (l.getD i (0, 0)).1 = t := by
  induction l with
  | nil => simp [firstHit]
  | cons hd tl ih =>
    obtain ⟨a, b⟩ := hd
    by_cases hp : p b
    · simp only [firstHit, if_pos hp, Option.some.injEq]
      constructor
      · rintro rfl
        exact ⟨0, by simp, by simpa using hp, by simp, rfl⟩
      · rintro ⟨i, hi, hqi, hfirst, ht⟩
        cases i with
        | zero => simpa using ht
        | succ m =>
          exact absurd hp (by simpa using hfirst 0 (Nat.succ_pos m))
    · simp only [firstHit, if_neg hp, ih]
      constructor
      · rintro ⟨i, hi, hqi, hfirst, ht⟩
        refine ⟨i + 1, by simpa using hi, by simpa using hqi, ?_, by simpa using ht⟩
        intro j hj
        cases j with
        | zero => simpa using hp
        | succ m => simpa using hfirst m (by omega)
      · rintro ⟨i, hi, hqi, hfirst, ht⟩
        cases i with
        | zero => exact absurd (by simpa using hqi) hp
        | succ m =>
          refine ⟨m, by simpa using hi, by simpa using hqi, ?_, by simpa using ht⟩
          intro j hj
          simpa using hfirst (j + 1) (by omega)

lemma zip_self_map {α β : Type} (l : List α) (f : α → β) :
    l.zip (l.map f) = l.map (fun x => (x, f x)) := by
  induction l with
  | nil => rfl
  | cons a tl ih => simp [ih]

/-- The zip of sample times with the solver output is the list of
`(t, coolingSol k target T0 t)` pairs. -/
lemma samples_eq (T0 k target : ℝ) (ts : List ℝ) :
    ts.zip (odeint T0 ts k target) = ts.map (fun t => (t, coolingSol k target T0 t)) := by
  rw [odeint, zip_self_map]

/-! ### Grid-building lemmas -/

/-- The zipped ravels enumerate, row by row, each ambient coordinate paired
with the whole initial-coordinate sequence. -/
lemma pairsFlat_eq (A B : List ℝ) :
    pairsFlat A B = (B.map (fun b => A.map (fun a => (a, b)))).flatten := by
  induction B with
  | nil => rfl
  | cons b Bs ih =>
    simp only [pairsFlat, meshgrid, ravel, List.map_cons, List.flatten_cons] at ih ⊢
    rw [List.zip_append (by rw [List.length_map]), ih, zip_self_map]

lemma pairsFlat_length (A B : List ℝ) :
    (pairsFlat A B).length = B.length * A.length := by
  rw [pairsFlat_eq]
  induction B with
  | nil => simp
  | cons b Bs ih =>
    simp only [List.map_cons, List.flatten_cons, List.length_append, List.length_map,
      List.length_cons, ih]
    ring

/-- Flat index `i * N + j` of the work list holds exactly the pair
`(A[j], B[i])`. -/
lemma pairsFlat_getD (A B : List ℝ) (i j : ℕ) (hi : i < B.length) (hj : j < A.length) :
    (pairsFlat A B).getD (i * A.length + j) (0, 0) = (A.getD j 0, B.getD i 0) := by
  rw [pairsFlat_eq]
  induction B generalizing i with
  | nil => simp at hi
  | cons b Bs ih =>
    simp only [List.map_cons, List.flatten_cons]
    cases i with
    | zero =>
      rw [Nat.zero_mul, Nat.zero_add]
      have hjm : j < (A.map (fun a => (a, b))).length := by
        rw [List.length_map]; exact hj
      rw [List.getD_eq_getElem?_getD, List.getElem?_append_left hjm,
        List.getElem?_eq_getElem hjm, List.getElem_map]
      rw [Option.getD_some, getD_of_lt _ _ _ hj, List.getD_cons_zero]
    | succ m =>
      have hm : m < Bs.length := by simpa using hi
      have hidx : (m + 1) * A.length + j
          = (A.map (fun a => (a, b))).length + (m * A.length + j) := by
        rw [List.length_map]; ring
      rw [hidx, List.getD_eq_getElem?_getD,
        List.getElem?_append_right (Nat.le_add_right _ _),
        Nat.add_sub_cancel_left, ← List.getD_eq_getElem?_getD]
      rw [ih m hm, List.getD_cons_succ]

/-- Reading back cell `(i, j)` of the unravelled grid gives flat result
`i * N + j`. -/
lemma cellAt_unravelFill (M N : ℕ) (res : List (Option ℝ)) (i j : ℕ)
    (hi : i < M) (hj : j < N) :
    cellAt (unravelFill M N res) i j = res.getD (i * N + j) (some 0) := by
  have hrow : (unravelFill M N res).getD i []
      = (List.range N).map (fun j => res.getD (i * N + j) (some 0)) := by
    rw [unravelFill,
      getD_of_lt _ _ _ (by rw [List.length_map, List.length_range]; exact hi),
      List.getElem_map, List.getElem_range]
  rw [cellAt, hrow,
    getD_of_lt _ _ _ (by rw [List.length_map, List.length_range]; exact hj),
    List.getElem_map, List.getElem_range]

lemma unravelFill_length (M N : ℕ) (res : List (Option ℝ)) :
    (unravelFill M N res).length = M := by
  rw [unravelFill, List.length_map, List.length_range]

lemma unravelFill_row_length (M N : ℕ) (res : List (Option ℝ)) (i : ℕ) (hi : i < M) :
    ((unravelFill M N res).getD i []).length = N := by
  rw [unravelFill,
    getD_of_lt _ _ _ (by rw [List.length_map, List.length_range]; exact hi),
    List.getElem_map, List.getElem_range, List.length_map, List.length_range]

/-! ### Per-cell description of the two sweeps -/

/-- Each MeatTemp grid cell is `sim_temp_change` at its own pair, with the
constant solve target `ROOM_TEMP`. -/
lemma meat_cell (A B : List ℝ) (i j : ℕ) (hi : i < B.length) (hj : j < A.length) :
    cellAt (MeatTemp.perform_simulation A B) i j
      = (MeatTemp.sim_temp_change (A.getD j 0) (B.getD i 0) MeatTemp.ROOM_TEMP).2.2 := by
  rw [MeatTemp.perform_simulation, cellAt_unravelFill _ _ _ _ _ hi hj,
    List.map_map, List.map_map]
  have hlt : i * A.length + j < (pairsFlat A B).length := by
    rw [pairsFlat_length]
    calc i * A.length + j < i * A.length + A.length := by omega
    _ = (i + 1) * A.length := by ring
    _ ≤ B.length * A.length := Nat.mul_le_mul_right _ hi
  rw [getD_of_lt _ _ _ (by rw [List.length_map]; exact hlt), List.getElem_map,
    ← getD_of_lt _ ((0 : ℝ), (0 : ℝ)) _ hlt, pairsFlat_getD A B i j hi hj]
  rfl

/-- Each ThawMaster grid cell is `sim_temp_change` at its own pair. -/
lemma thaw_cell (A B : List ℝ) (i j : ℕ) (hi : i < B.length) (hj : j < A.length) :
    cellAt (ThawMaster.perform_simulation A B) i j
      = (ThawMaster.sim_temp_change (A.getD j 0) (B.getD i 0)).2.2 := by
  rw [ThawMaster.perform_simulation, cellAt_unravelFill _ _ _ _ _ hi hj,
    List.map_map]
  have hlt : i * A.length + j < (pairsFlat A B).length := by
    rw [pairsFlat_length]
    calc i * A.length + j < i * A.length + A.length := by omega
    _ = (i + 1) * A.length := by ring
    _ ≤ B.length * A.length := Nat.mul_le_mul_right _ hi
  rw [getD_of_lt _ _ _ (by rw [List.length_map]; exact hlt), List.getElem_map,
    ← getD_of_lt _ ((0 : ℝ), (0 : ℝ)) _ hlt, pairsFlat_getD A B i j hi hj]
  rfl

/-! ### Pool-scheduling lemmas -/

lemma find_runOnPool {α β : Type} (f : α → β) (inputs : List α) (d : α)
    (sched : List ℕ) (k : ℕ) (hk : k ∈ sched) :
    (runOnPool f inputs d sched).find? (fun q => q.1 == k)
      = some (k, f (inputs.getD k d)) := by
  induction sched with
  | nil => simp at hk
  | cons a s ih =>
    rw [runOnPool, List.map_cons]
    by_cases hak : a = k
    · subst hak
      rw [List.find?_cons_of_pos _ (by simp)]
    · rw [List.find?_cons_of_neg _ (by simp [hak])]
      have hk' : k ∈ s := by
        rcases List.mem_cons.1 hk with h | h
        · exact absurd h.symm hak
        · exact h
      rw [← runOnPool]
      exact ih hk'

/-- Gathering any permutation schedule's completions reproduces the
sequential `starmap` result. -/
lemma collect_runOnPool {α β : Type} (f : α → β) (inputs : List α) (d : α)
    (sched : List ℕ) (h : sched.Perm (List.range inputs.length)) :
    collect inputs.length (runOnPool f inputs d sched)
      = inputs.map (fun a => some (f a)) := by
  apply List.ext_getElem
  · rw [collect, List.length_map, List.length_range, List.length_map]
  · intro n h1 h2
    have hn : n < inputs.length := by
      rwa [List.length_map] at h2
    have hmem : n ∈ sched := h.mem_iff.2 (List.mem_range.2 hn)
    simp only [collect] at h1 ⊢
    rw [List.getElem_map, List.getElem_range, find_runOnPool f inputs d sched n hmem]
    simp [List.getElem?_eq_getElem hn]

/-- The scheduled MeatTemp sweep equals the sequential one for any
permutation schedule. -/
lemma meat_sched_eq (A B : List ℝ) (sched : List ℕ)
    (h : sched.Perm (List.range (B.length * A.length))) :
    MeatTemp.perform_simulation_sched A B sched = MeatTemp.perform_simulation A B := by
  rw [MeatTemp.perform_simulation_sched, MeatTemp.perform_simulation]
  have hlen : ((pairsFlat A B).map
      (fun p : ℝ × ℝ => (p.1, p.2, MeatTemp.ROOM_TEMP))).length
      = B.length * A.length := by
    rw [List.length_map, pairsFlat_length]
  rw [collect_runOnPool _ _ _ sched (by rw [hlen]; exact h)]
  simp [List.map_map, Function.comp_def]

/-- The scheduled ThawMaster sweep equals the sequential one for any
permutation schedule. -/
lemma thaw_sched_eq (A B : List ℝ) (sched : List ℕ)
    (h : sched.Perm (List.range (B.length * A.length))) :
    ThawMaster.perform_simulation_sched A B sched = ThawMaster.perform_simulation A B := by
  rw [ThawMaster.perform_simulation_sched, ThawMaster.perform_simulation]
  rw [collect_runOnPool _ _ _ sched (by rw [pairsFlat_length]; exact h)]
  simp [List.map_map, Function.comp_def]

/-! ### The embedded solver really solves the cooling ODE -/

/-- `coolingSol` satisfies the initial condition of the `odeint` call. -/
lemma coolingSol_init (k room T0 : ℝ) : coolingSol k room T0 0 = T0 := by
  rw [coolingSol]
  simp

/-- `coolingSol` solves `dT/dt = model T t k room`, the equation handed to
`odeint` in `sim_temp_change`. -/
lemma coolingSol_hasDerivAt (k room T0 t : ℝ) :
    HasDerivAt (coolingSol k room T0) (model (coolingSol k room T0 t) t k room) t := by
  have h1 : HasDerivAt (fun s : ℝ => -k * s) (-k) t := by
    simpa using (hasDerivAt_id t).const_mul (-k)
  have h2 : HasDerivAt (fun s : ℝ => Real.exp (-k * s))
      (Real.exp (-k * t) * (-k)) t := h1.exp
  have h3 : HasDerivAt (fun s : ℝ => room + (T0 - room) * Real.exp (-k * s))
      ((T0 - room) * (Real.exp (-k * t) * (-k))) t :=
    (h2.const_mul (T0 - room)).const_add room
  have heq : model (coolingSol k room T0 t) t k room
      = (T0 - room) * (Real.exp (-k * t) * (-k)) := by
    rw [model, coolingSol]
    ring
  rw [heq]
  exact h3

/-! ### Per-call description of the two simulators -/

/-- MeatTemp's simulator output, written as a first-hit scan over the
sampled exact trajectory toward the solve target `c`. -/
lemma meat_sim_eq (a b c : ℝ) :
    (MeatTemp.sim_temp_change a b c).2.2
      = firstWithin 1 b ((linspace 0 MeatTemp.SIM_LEN MeatTemp.SIM_STEPS).map
          (fun t => (t, coolingSol MeatTemp.k_value c a t))) := by
  simp only [MeatTemp.sim_temp_change]
  rw [samples_eq]

/-- ThawMaster's simulator output, written as a first-hit scan over the
sampled exact trajectory toward the solve target `b`. -/
lemma thaw_sim_eq (a b : ℝ) :
    (ThawMaster.sim_temp_change a b).2.2
      = firstWithinLe 0.01 b ((linspace 0 ThawMaster.SIM_LEN ThawMaster.SIM_STEPS).map
          (fun t => (t, coolingSol ThawMaster.k_value b a t))) := by
  simp only [ThawMaster.sim_temp_change]
  rw [samples_eq]

/-- Any time returned by a first-hit scan over a sampled trajectory is one of
the linspace sample times. -/
lemma firstHit_linspace_time (p : ℝ → Prop) [DecidablePred p] (f : ℝ → ℝ)
    (a b : ℝ) (n : ℕ) (t : ℝ)
    (h : firstHit p ((linspace a b n).map (fun x => (x, f x))) = some t) :
    ∃ i, i < n ∧ t = a + (b - a) * i / ((n : ℝ) - 1) := by
  obtain ⟨q, hq, hq1, _⟩ := firstHit_mem _ _ _ h
  obtain ⟨x, hx, rfl⟩ := List.mem_map.1 hq
  obtain ⟨i, hi, rfl⟩ := (mem_linspace_iff a b n x).1 hx
  exact ⟨i, hi, hq1.symm⟩

/-- MeatTemp reported times are sample times in `[0, SIM_LEN]`. -/
lemma meat_time_bounds (a b c t : ℝ)
    (h : (MeatTemp.sim_temp_change a b c).2.2 = some t) :
    ∃ i : ℕ, i < MeatTemp.SIM_STEPS ∧
      t = (i : ℝ) * MeatTemp.SIM_LEN / ((MeatTemp.SIM_STEPS : ℝ) - 1) ∧
      0 ≤ t ∧ t ≤ MeatTemp.SIM_LEN := by
  rw [meat_sim_eq, firstWithin] at h
  obtain ⟨i, hi, ht⟩ := firstHit_linspace_time _ _ _ _ _ _ h
  have hi9 : (i : ℝ) ≤ 999 := by
    have : i ≤ 999 := by
      have h2 := hi
      simp only [MeatTemp.SIM_STEPS] at h2
      omega
    exact_mod_cast this
  refine ⟨i, hi, by rw [ht]; ring, ?_, ?_⟩
  · rw [ht]
    simp only [MeatTemp.SIM_LEN, MeatTemp.SIM_STEPS]
    norm_num
    positivity
  · rw [ht]
    simp only [MeatTemp.SIM_LEN, MeatTemp.SIM_STEPS]
    norm_num
    rw [div_le_iff (by norm_num : (0 : ℝ) < 999)]
    nlinarith [hi9]

/-- ThawMaster reported times are sample times in `[0, SIM_LEN]`. -/
lemma thaw_time_bounds (a b t : ℝ)
    (h : (ThawMaster.sim_temp_change a b).2.2 = some t) :
    ∃ i : ℕ, i < ThawMaster.SIM_STEPS ∧
      t = (i : ℝ) * ThawMaster.SIM_LEN / ((ThawMaster.SIM_STEPS : ℝ) - 1) ∧
      0 ≤ t ∧ t ≤ ThawMaster.SIM_LEN := by
  rw [thaw_sim_eq, firstWithinLe] at h
  obtain ⟨i, hi, ht⟩ := firstHit_linspace_time _ _ _ _ _ _ h
  have hi9 : (i : ℝ) ≤ 9999 := by
    have : i ≤ 9999 := by
      have h2 := hi
      simp only [ThawMaster.SIM_STEPS] at h2
      omega
    exact_mod_cast this
  refine ⟨i, hi, by rw [ht]; ring, ?_, ?_⟩
  · rw [ht]
    simp only [ThawMaster.SIM_LEN, ThawMaster.SIM_STEPS]
    norm_num
    positivity
  · rw [ht]
    simp only [ThawMaster.SIM_LEN, ThawMaster.SIM_STEPS]
    norm_num
    rw [div_le_iff (by norm_num : (0 : ℝ) < 9999)]
    nlinarith [hi9]

/-- If no sample of the (exact) trajectory is within tolerance, MeatTemp's
simulator returns the `None` sentinel. -/
lemma meat_sim_none (a b c : ℝ)
    (h : ∀ t ∈ linspace 0 MeatTemp.SIM_LEN MeatTemp.SIM_STEPS,
        ¬ |coolingSol MeatTemp.k_value c a t - b| < 1) :
    (MeatTemp.sim_temp_change a b c).2.2 = none := by
  rw [meat_sim_eq, firstWithin, firstHit_eq_none_iff]
  intro q hq
  obtain ⟨x, hx, rfl⟩ := List.mem_map.1 hq
  exact h x hx

/-- If no sample of the (exact) trajectory is within tolerance, ThawMaster's
simulator returns the `NaN` sentinel. -/
lemma thaw_sim_none (a b : ℝ)
    (h : ∀ t ∈ linspace 0 ThawMaster.SIM_LEN ThawMaster.SIM_STEPS,
        ¬ |coolingSol ThawMaster.k_value b a t - b| ≤ 0.01) :
    (ThawMaster.sim_temp_change a b).2.2 = none := by
  rw [thaw_sim_eq, firstWithinLe, firstHit_eq_none_iff]
  intro q hq
  obtain ⟨x, hx, rfl⟩ := List.mem_map.1 hq
  exact h x hx

/-! ### Concrete numeric facts -/

/-- MeatTemp's cooling constant, in closed rational form. -/
lemma meat_k_value_eq : MeatTemp.k_value = 3 / 8320 := by
  simp only [MeatTemp.k_value, MeatTemp.CONV_HEAT_TRANS_COEF, MeatTemp.SURF_AREA,
    MeatTemp.MASS, MeatTemp.VOLUME, MeatTemp.DENS, MeatTemp.W, MeatTemp.L, MeatTemp.H,
    MeatTemp.SPEC_HEAT_CAP]
  norm_num

lemma meat_k_pos : 0 < MeatTemp.k_value := by
  rw [meat_k_value_eq]; norm_num

lemma exp_three_gt_fifteen : (15 : ℝ) < Real.exp 3 := by
  have h1 : (2.7182818283 : ℝ) < Real.exp 1 := Real.exp_one_gt_d9
  have h27 : (2.7 : ℝ) < Real.exp 1 := by linarith
  have h3 : Real.exp 3 = Real.exp 1 ^ 3 := by
    rw [show (3 : ℝ) = (3 : ℕ) * 1 by norm_num, Real.exp_nat_mul]
  have hpow : (2.7 : ℝ) ^ 3 < Real.exp 1 ^ 3 := by
    exact pow_lt_pow_left h27 (by norm_num) (by norm_num)
  rw [h3]
  nlinarith [hpow]

/-- At the last MeatTemp sample time the exponential factor has decayed past
`1 / 15`. -/
lemma meat_exp_decay_final : Real.exp (-MeatTemp.k_value * 10000) < 1 / 15 := by
  rw [meat_k_value_eq, show (-(3 / 8320 : ℝ) * 10000) = -(375 / 104) by norm_num,
    Real.exp_neg]
  have h15 : (15 : ℝ) < Real.exp (375 / 104) :=
    lt_of_lt_of_le exp_three_gt_fifteen (Real.exp_le_exp.2 (by norm_num))
  rw [one_div]
  exact inv_lt_inv_of_lt (by norm_num) h15

/-- The horizon itself is a sample time of the MeatTemp time grid. -/
lemma meat_horizon_mem :
    (10000 : ℝ) ∈ linspace 0 MeatTemp.SIM_LEN MeatTemp.SIM_STEPS := by
  rw [mem_linspace_iff]
  refine ⟨999, by simp [MeatTemp.SIM_STEPS], ?_⟩
  simp only [MeatTemp.SIM_LEN, MeatTemp.SIM_STEPS]
  norm_num

/-! ### Claim C1 -/

/-- Modelled from the spec: the Sweep Orchestrator contract's cell value,
`Threshold-Detector(Trajectory-Solver(initial = A[j], target = B[i]))`,
i.e. the trajectory solved toward the cell's own ambient coordinate, with
MeatTemp's detector tolerance.  (The MeatTemp source instead passes the
fixed module constant `ROOM_TEMP` as the solve target.) -/
noncomputable def specCellMeat (a b : ℝ) : Option ℝ :=
  firstWithin 1 b ((linspace 0 MeatTemp.SIM_LEN MeatTemp.SIM_STEPS).map
    (fun t => (t, coolingSol MeatTemp.k_value b a t)))

/-- C1 counterexample: for A = [25], B = [10] the MeatTemp sweep's cell
(0, 0) is the sentinel `none`, while the spec's claimed cell value — the
detector over the trajectory solved toward B[0] = 10 — is a hit, so the
claimed equation fails at this input. -/
theorem C1_counterexample :
    cellAt (MeatTemp.perform_simulation [25] [10]) 0 0 = none ∧
    specCellMeat 25 10 ≠ none := by
  have hRT : MeatTemp.ROOM_TEMP = 20 := by norm_num [MeatTemp.ROOM_TEMP]
  constructor
  · rw [meat_cell [25] [10] 0 0 (by simp) (by simp)]
    simp only [List.getD_cons_zero]
    apply meat_sim_none
    intro t ht habs
    rw [coolingSol, hRT] at habs
    have he : 0 < Real.exp (-MeatTemp.k_value * t) := Real.exp_pos _
    rw [abs_lt] at habs
    linarith [habs.1]
  · intro hnone
    rw [specCellMeat, firstWithin, firstHit_eq_none_iff] at hnone
    have hmem : ((10000 : ℝ), coolingSol MeatTemp.k_value 10 25 10000)
        ∈ (linspace 0 MeatTemp.SIM_LEN MeatTemp.SIM_STEPS).map
          (fun t => (t, coolingSol MeatTemp.k_value 10 25 t)) :=
      List.mem_map.2 ⟨10000, meat_horizon_mem, rfl⟩
    apply hnone _ hmem
    show |coolingSol MeatTemp.k_value 10 25 10000 - 10| < 1
    rw [coolingSol]
    have he := meat_exp_decay_final
    have hepos : 0 < Real.exp (-MeatTemp.k_value * 10000) := Real.exp_pos _
    rw [abs_lt]
    constructor <;> nlinarith

/-- C1 (amended): the sweep returns a `(len B, len A)` grid in which every
one of the N×M pairs is evaluated; cell (i, j) is the first-hit detector at
detection target B[i] over the trajectory with initial temperature A[j] —
solved toward B[i] in the ThawMaster variant but toward the fixed
`ROOM_TEMP` in the MeatTemp variant. -/
theorem C1_sweep_grid (A B : List ℝ) (i j : ℕ) (hi : i < B.length) (hj : j < A.length) :
    (MeatTemp.perform_simulation A B).length = B.length ∧
    ((MeatTemp.perform_simulation A B).getD i []).length = A.length ∧
    cellAt (MeatTemp.perform_simulation A B) i j
      = firstWithin 1 (B.getD i 0)
          ((linspace 0 MeatTemp.SIM_LEN MeatTemp.SIM_STEPS).map
            (fun t => (t, coolingSol MeatTemp.k_value MeatTemp.ROOM_TEMP (A.getD j 0) t))) ∧
    (ThawMaster.perform_simulation A B).length = B.length ∧
    ((ThawMaster.perform_simulation A B).getD i []).length = A.length ∧
    cellAt (ThawMaster.perform_simulation A B) i j
      = firstWithinLe 0.01 (B.getD i 0)
          ((linspace 0 ThawMaster.SIM_LEN ThawMaster.SIM_STEPS).map
            (fun t => (t, coolingSol ThawMaster.k_value (B.getD i 0) (A.getD j 0) t))) := by
  refine ⟨?_, ?_, ?_, ?_, ?_, ?_⟩
  · rw [MeatTemp.perform_simulation, unravelFill_length]
  · rw [MeatTemp.perform_simulation, unravelFill_row_length _ _ _ _ hi]
  · rw [meat_cell A B i j hi hj, meat_sim_eq]
  · rw [ThawMaster.perform_simulation, unravelFill_length]
  · rw [ThawMaster.perform_simulation, unravelFill_row_length _ _ _ _ hi]
  · rw [thaw_cell A B i j hi hj, thaw_sim_eq]

/-- C1 witness: the amended sweep theorem applied at a concrete 1×2 input. -/
theorem C1_sweep_grid_witness :
    0 < List.length [(5 : ℝ)] ∧ 1 < List.length [(1 : ℝ), 2] ∧
    (MeatTemp.perform_simulation [1, 2] [5]).length = List.length [(5 : ℝ)] := by
  refine ⟨by simp, by simp, ?_⟩
  exact (C1_sweep_grid [1, 2] [5] 0 1 (by simp) (by simp)).1

/-! ### Claim C2 -/

/-- C2 counterexample: the MeatTemp detector uses the strict comparison
`abs(T[i] - room_temp) < 1`, so on a trajectory whose first sample is at
distance exactly 1 = tolerance from the target it returns `none`, although
the claimed `≤`-semantics would return that sample's time. -/
theorem C2_counterexample :
    firstWithin 1 15 [((0 : ℝ), (14 : ℝ))] = none ∧ |(14 : ℝ) - 15| ≤ 1 := by
  constructor
  · rw [firstWithin]
    show (if |(14 : ℝ) - 15| < 1 then some (0 : ℝ) else firstHit _ []) = none
    rw [if_neg (by norm_num), firstHit]
  · norm_num

/-- C2 (amended): on every trajectory, target and tolerance, ThawMaster's
detector returns the time of the first sample with `|T - target| ≤ tol`,
while MeatTemp's returns the time of the first sample with the strict
`|T - target| < tol`; both return the earliest qualifying sample's own time
(no later sample, no interpolation). -/
theorem C2_detector_first_sample (l : List (ℝ × ℝ)) (tgt tol t : ℝ) :
    (firstWithin tol tgt l = some t ↔
      ∃ i, i < l.length ∧ |(l.getD i (0, 0)).2 - tgt| < tol ∧
        (∀ j, j < i → ¬ |(l.getD j (0, 0)).2 - tgt| < tol) ∧ (l.getD i (0, 0)).1 = t) ∧
    (firstWithinLe tol tgt l = some t ↔
      ∃ i, i < l.length ∧ |(l.getD i (0, 0)).2 - tgt| ≤ tol ∧
        (∀ j, j < i → ¬ |(l.getD j (0, 0)).2 - tgt| ≤ tol) ∧ (l.getD i (0, 0)).1 = t) :=
  ⟨firstHit_eq_some_iff _ l t, firstHit_eq_some_iff _ l t⟩

/-! ### Claim C9 -/

/-- C9: in the MeatTemp variant every grid cell's trajectory is solved
toward the fixed module constant `ROOM_TEMP = 20`, regardless of the cell's
ambient coordinate; only the threshold comparison uses the cell's ambient
coordinate B[i]. -/
theorem C9_meat_solve_target_fixed (A B : List ℝ) (i j : ℕ)
    (hi : i < B.length) (hj : j < A.length) :
    MeatTemp.ROOM_TEMP = 20 ∧
    cellAt (MeatTemp.perform_simulation A B) i j
      = (MeatTemp.sim_temp_change (A.getD j 0) (B.getD i 0) MeatTemp.ROOM_TEMP).2.2 ∧
    (MeatTemp.sim_temp_change (A.getD j 0) (B.getD i 0) MeatTemp.ROOM_TEMP).2.2
      = firstWithin 1 (B.getD i 0)
          ((linspace 0 MeatTemp.SIM_LEN MeatTemp.SIM_STEPS).map
            (fun t => (t, coolingSol MeatTemp.k_value MeatTemp.ROOM_TEMP (A.getD j 0) t))) :=
  ⟨by norm_num [MeatTemp.ROOM_TEMP], meat_cell A B i j hi hj, meat_sim_eq _ _ _⟩

/-- C9 witness: the fixed-solve-target theorem applied at a concrete 1×1
input. -/
theorem C9_meat_solve_target_fixed_witness :
    0 < List.length [(7 : ℝ)] ∧ 0 < List.length [(3 : ℝ)] ∧ MeatTemp.ROOM_TEMP = 20 :=
  ⟨by simp, by simp, (C9_meat_solve_target_fixed [3] [7] 0 0 (by simp) (by simp)).1⟩

/-! ### Claim C3 -/

/-- C3: when no trajectory sample comes within tolerance of the detection
target, the cell of the assembled result grid is the explicit sentinel
`none`, which is distinct from `some u` for every elapsed time `u` — in
particular from `some 0` — in both variants. -/
theorem C3_not_reached_sentinel (A B : List ℝ) (i j : ℕ)
    (hi : i < B.length) (hj : j < A.length) :
    ((∀ t ∈ linspace 0 MeatTemp.SIM_LEN MeatTemp.SIM_STEPS,
        ¬ |coolingSol MeatTemp.k_value MeatTemp.ROOM_TEMP (A.getD j 0) t - B.getD i 0| < 1) →
      cellAt (MeatTemp.perform_simulation A B) i j = none) ∧
    ((∀ t ∈ linspace 0 ThawMaster.SIM_LEN ThawMaster.SIM_STEPS,
        ¬ |coolingSol ThawMaster.k_value (B.getD i 0) (A.getD j 0) t - B.getD i 0| ≤ 0.01) →
      cellAt (ThawMaster.perform_simulation A B) i j = none) ∧
    (∀ u : ℝ, (none : Option ℝ) ≠ some u) ∧
    (none : Option ℝ) ≠ some 0 := by
  refine ⟨?_, ?_, fun u h => Option.noConfusion h, fun h => Option.noConfusion h⟩
  · intro h
    rw [meat_cell A B i j hi hj]
    exact meat_sim_none _ _ _ h
  · intro h
    rw [thaw_cell A B i j hi hj]
    exact thaw_sim_none _ _ h

/-- C3 witness: the sentinel theorem applied at a concrete 1×1 input. -/
theorem C3_not_reached_sentinel_witness :
    0 < List.length [(10 : ℝ)] ∧ 0 < List.length [(25 : ℝ)] ∧
    (∀ u : ℝ, (none : Option ℝ) ≠ some u) :=
  ⟨by simp, by simp, (C3_not_reached_sentinel [25] [10] 0 0 (by simp) (by simp)).2.2.1⟩

/-! ### Claim C4 -/

/-- C4: round-trip of grid building, flattening and reshaping — flat index
`i * N + j` of the meshgrid-ravel-zip enumeration holds exactly the pair
`(A[j], B[i])`, and the row-major unravel of any flat per-pair results back
onto shape `(M, N)` puts the result of that same pair at cell `(i, j)`. -/
theorem C4_grid_roundtrip (g : ℝ → ℝ → Option ℝ) (A B : List ℝ) (i j : ℕ)
    (hi : i < B.length) (hj : j < A.length) :
    (pairsFlat A B).getD (i * A.length + j) (0, 0) = (A.getD j 0, B.getD i 0) ∧
    cellAt (unravelFill B.length A.length
        ((pairsFlat A B).map (fun p => g p.1 p.2))) i j
      = g (A.getD j 0) (B.getD i 0) := by
  refine ⟨pairsFlat_getD A B i j hi hj, ?_⟩
  rw [cellAt_unravelFill _ _ _ _ _ hi hj]
  have hlt : i * A.length + j < (pairsFlat A B).length := by
    rw [pairsFlat_length]
    calc i * A.length + j < i * A.length + A.length := by omega
      _ = (i + 1) * A.length := by ring
      _ ≤ B.length * A.length := Nat.mul_le_mul_right _ hi
  rw [getD_of_lt _ _ _ (by rw [List.length_map]; exact hlt), List.getElem_map,
    ← getD_of_lt _ ((0 : ℝ), (0 : ℝ)) _ hlt, pairsFlat_getD A B i j hi hj]

/-- C4 witness: the round-trip theorem applied at a concrete 1×2 input. -/
theorem C4_grid_roundtrip_witness :
    0 < List.length [(7 : ℝ)] ∧ 1 < List.length [(1 : ℝ), 2] ∧
    (pairsFlat [1, 2] [7]).getD (0 * List.length [(1 : ℝ), 2] + 1) (0, 0) = (2, 7) := by
  refine ⟨by simp, by simp, ?_⟩
  have h := (C4_grid_roundtrip (fun a b => some (a + b)) [1, 2] [7] 0 1 (by simp) (by simp)).1
  simpa using h

/-! ### Claim C5 -/

/-- C5: for every initial temperature, target and cooling constant `k > 0`,
the trajectory solver of each variant yields exactly its `SIM_STEPS` samples
at evenly spaced times `i * SIM_LEN / (SIM_STEPS - 1)` from `0` to its
horizon inclusive, the sample at each time equals the analytic solution
`target + (T0 - target) * exp (-k t)` (exactly, hence within any numerical
tolerance), and that analytic function really solves the `model` ODE with
initial value `T0`.  Stated for MeatTemp's configuration
(`SIM_LEN = 10000`, `SIM_STEPS = 1000`) and for ThawMaster's
(`SIM_LEN = 250000`, `SIM_STEPS = 10000`). -/
theorem C5_trajectory_solver (T0 tgt k : ℝ) (hk : 0 < k) :
    (odeint T0 (linspace 0 MeatTemp.SIM_LEN MeatTemp.SIM_STEPS) k tgt).length
      = MeatTemp.SIM_STEPS ∧
    (∀ i, i < MeatTemp.SIM_STEPS →
      (linspace 0 MeatTemp.SIM_LEN MeatTemp.SIM_STEPS).getD i 0
        = (i : ℝ) * MeatTemp.SIM_LEN / ((MeatTemp.SIM_STEPS : ℝ) - 1)) ∧
    (linspace 0 MeatTemp.SIM_LEN MeatTemp.SIM_STEPS).getD 0 0 = 0 ∧
    (linspace 0 MeatTemp.SIM_LEN MeatTemp.SIM_STEPS).getD (MeatTemp.SIM_STEPS - 1) 0
      = MeatTemp.SIM_LEN ∧
    (∀ i, i < MeatTemp.SIM_STEPS →
      (odeint T0 (linspace 0 MeatTemp.SIM_LEN MeatTemp.SIM_STEPS) k tgt).getD i 0
        = tgt + (T0 - tgt)
            * Real.exp (-k * ((linspace 0 MeatTemp.SIM_LEN MeatTemp.SIM_STEPS).getD i 0))) ∧
    coolingSol k tgt T0 0 = T0 ∧
    (∀ t : ℝ, HasDerivAt (coolingSol k tgt T0) (model (coolingSol k tgt T0 t) t k tgt) t) ∧
    (odeint T0 (linspace 0 ThawMaster.SIM_LEN ThawMaster.SIM_STEPS) k tgt).length
      = ThawMaster.SIM_STEPS ∧
    (∀ i, i < ThawMaster.SIM_STEPS →
      (linspace 0 ThawMaster.SIM_LEN ThawMaster.SIM_STEPS).getD i 0
        = (i : ℝ) * ThawMaster.SIM_LEN / ((ThawMaster.SIM_STEPS : ℝ) - 1)) ∧
    (linspace 0 ThawMaster.SIM_LEN ThawMaster.SIM_STEPS).getD 0 0 = 0 ∧
    (linspace 0 ThawMaster.SIM_LEN ThawMaster.SIM_STEPS).getD (ThawMaster.SIM_STEPS - 1) 0
      = ThawMaster.SIM_LEN ∧
    (∀ i, i < ThawMaster.SIM_STEPS →
      (odeint T0 (linspace 0 ThawMaster.SIM_LEN ThawMaster.SIM_STEPS) k tgt).getD i 0
        = tgt + (T0 - tgt)
            * Real.exp (-k * ((linspace 0 ThawMaster.SIM_LEN ThawMaster.SIM_STEPS).getD i 0))) := by
  refine ⟨?_, ?_, ?_, ?_, ?_, coolingSol_init k tgt T0,
    fun t => coolingSol_hasDerivAt k tgt T0 t, ?_, ?_, ?_, ?_, ?_⟩
  · rw [odeint, List.length_map, linspace_length]
  · intro i hi
    rw [linspace_getD _ _ _ _ hi]
    ring
  · rw [linspace_getD _ _ _ _ (by simp [MeatTemp.SIM_STEPS])]
    norm_num
  · rw [linspace_getD _ _ _ _ (by simp [MeatTemp.SIM_STEPS])]
    simp only [MeatTemp.SIM_LEN, MeatTemp.SIM_STEPS]
    norm_num
  · intro i hi
    rw [odeint]
    have hlen : i < (linspace 0 MeatTemp.SIM_LEN MeatTemp.SIM_STEPS).length := by
      rw [linspace_length]; exact hi
    rw [getD_of_lt _ _ _ (by rw [List.length_map]; exact hlen), List.getElem_map,
      ← getD_of_lt _ (0 : ℝ) _ hlen]
    rfl
  · rw [odeint, List.length_map, linspace_length]
  · intro i hi
    rw [linspace_getD _ _ _ _ hi]
    ring
  · rw [linspace_getD _ _ _ _ (by simp [ThawMaster.SIM_STEPS])]
    norm_num
  · rw [linspace_getD _ _ _ _ (by simp [ThawMaster.SIM_STEPS])]
    simp only [ThawMaster.SIM_LEN, ThawMaster.SIM_STEPS]
    norm_num
  · intro i hi
    rw [odeint]
    have hlen : i < (linspace 0 ThawMaster.SIM_LEN ThawMaster.SIM_STEPS).length := by
      rw [linspace_length]; exact hi
    rw [getD_of_lt _ _ _ (by rw [List.length_map]; exact hlen), List.getElem_map,
      ← getD_of_lt _ (0 : ℝ) _ hlen]
    rfl

/-- C5 witness: the solver theorem applied at `T0 = 5`, `target = 3`,
`k = 1`. -/
theorem C5_trajectory_solver_witness : (0 : ℝ) < 1 ∧ coolingSol 1 3 5 0 = 5 :=
  ⟨by norm_num, (C5_trajectory_solver 5 3 1 (by norm_num)).2.2.2.2.2.1⟩

/-! ### Claim C6 -/

/-- The initial-temperature coordinates of MeatTemp's `main`:
`np.linspace(0, 10, 100)`. -/
noncomputable def meatInitTemps : List ℝ := linspace 0 10 100

/-- The ambient coordinates of MeatTemp's `main`: `np.linspace(15, 25, 100)`. -/
noncomputable def meatRoomTemps : List ℝ := linspace 15 25 100

/-- The Result Grid of MeatTemp's `main` scenario. -/
noncomputable def meatGrid : List (List (Option ℝ)) :=
  MeatTemp.perform_simulation meatInitTemps meatRoomTemps

/-- C6 counterexample: in the end-to-end scenario the cell for initial
temperature `A[0] = 0` and ambient `B[99] = 25` is the `none` sentinel
(`NaN` in the float grid), because the trajectory is solved toward the fixed
`ROOM_TEMP = 20` and never comes within 1 degree of 25 — so not every entry
of the Result Grid is finite. -/
theorem C6_counterexample : cellAt meatGrid 99 0 = none := by
  have hRT : MeatTemp.ROOM_TEMP = 20 := by norm_num [MeatTemp.ROOM_TEMP]
  rw [meatGrid, meat_cell _ _ 99 0 (by rw [meatRoomTemps, linspace_length]; norm_num)
    (by rw [meatInitTemps, linspace_length]; norm_num)]
  have hA : meatInitTemps.getD 0 0 = 0 := by
    rw [meatInitTemps, linspace_getD _ _ _ _ (by norm_num)]
    norm_num
  have hB : meatRoomTemps.getD 99 0 = 25 := by
    rw [meatRoomTemps, linspace_getD _ _ _ _ (by norm_num)]
    norm_num
  rw [hA, hB]
  apply meat_sim_none
  intro t ht habs
  rw [coolingSol, hRT] at habs
  have he : 0 < Real.exp (-MeatTemp.k_value * t) := Real.exp_pos _
  rw [abs_lt] at habs
  linarith [habs.1]

/-- C6 (amended): the end-to-end scenario's Result Grid has shape
`(100, 100)` and every entry is either the not-reached sentinel or a finite
elapsed time in `[0, SIM_LEN]` (hence non-negative); not every entry is
finite (see the counterexample). -/
theorem C6_end_to_end (i j : ℕ) (hi : i < 100) (hj : j < 100) :
    meatGrid.length = 100 ∧
    (meatGrid.getD i []).length = 100 ∧
    (cellAt meatGrid i j = none ∨
      ∃ u, cellAt meatGrid i j = some u ∧ 0 ≤ u ∧ u ≤ MeatTemp.SIM_LEN) := by
  have hB : meatRoomTemps.length = 100 := by rw [meatRoomTemps, linspace_length]
  have hA : meatInitTemps.length = 100 := by rw [meatInitTemps, linspace_length]
  refine ⟨?_, ?_, ?_⟩
  · rw [meatGrid, MeatTemp.perform_simulation, unravelFill_length, hB]
  · rw [meatGrid, MeatTemp.perform_simulation,
      unravelFill_row_length _ _ _ _ (by rw [hB]; exact hi), hA]
  · rw [meatGrid, meat_cell _ _ i j (by rw [hB]; exact hi) (by rw [hA]; exact hj)]
    cases hcell : (MeatTemp.sim_temp_change (meatInitTemps.getD j 0)
        (meatRoomTemps.getD i 0) MeatTemp.ROOM_TEMP).2.2 with
    | none => exact Or.inl rfl
    | some u =>
      obtain ⟨m, hm, hval, h0, hL⟩ := meat_time_bounds _ _ _ _ hcell
      exact Or.inr ⟨u, rfl, h0, hL⟩

/-- C6 witness: the amended end-to-end theorem applied at cell (99, 0). -/
theorem C6_end_to_end_witness : 99 < 100 ∧ 0 < 100 ∧ meatGrid.length = 100 :=
  ⟨by norm_num, by norm_num, (C6_end_to_end 99 0 (by norm_num) (by norm_num)).1⟩

/-! ### Claim C7 -/

/-- C7: the sweep is deterministic and schedule-independent — any two
permutation schedules of the worker pool yield the same Result Grid, equal
to the sequential sweep, in both variants. -/
theorem C7_schedule_independent (A B : List ℝ) (s1 s2 : List ℕ)
    (h1 : s1.Perm (List.range (B.length * A.length)))
    (h2 : s2.Perm (List.range (B.length * A.length))) :
    MeatTemp.perform_simulation_sched A B s1 = MeatTemp.perform_simulation_sched A B s2 ∧
    MeatTemp.perform_simulation_sched A B s1 = MeatTemp.perform_simulation A B ∧
    ThawMaster.perform_simulation_sched A B s1 = ThawMaster.perform_simulation_sched A B s2 ∧
    ThawMaster.perform_simulation_sched A B s1 = ThawMaster.perform_simulation A B := by
  refine ⟨?_, meat_sched_eq A B s1 h1, ?_, thaw_sched_eq A B s1 h1⟩
  · rw [meat_sched_eq A B s1 h1, meat_sched_eq A B s2 h2]
  · rw [thaw_sched_eq A B s1 h1, thaw_sched_eq A B s2 h2]

/-- C7 witness: schedule-independence applied to a concrete 1×1 sweep with
the singleton schedule. -/
theorem C7_schedule_independent_witness :
    ([0] : List ℕ).Perm (List.range (List.length [(2 : ℝ)] * List.length [(1 : ℝ)])) ∧
    MeatTemp.perform_simulation_sched [1] [2] [0] = MeatTemp.perform_simulation [1] [2] := by
  have hp : ([0] : List ℕ).Perm
      (List.range (List.length [(2 : ℝ)] * List.length [(1 : ℝ)])) := by
    have h1 : List.length [(2 : ℝ)] * List.length [(1 : ℝ)] = 1 := by simp
    rw [h1, show List.range 1 = [0] from rfl]
  exact ⟨hp, (C7_schedule_independent [1] [2] [0] [0] hp hp).2.1⟩

/-! ### Claim C8 -/

/-- C8: for every cooling constant `k > 0`, target and initial temperature,
the sampled trajectory converges monotonically toward the target with no
overshoot — the absolute deviation from the target is non-increasing in the
sample index, and every sample stays on the initial side of the target. -/
theorem C8_monotone_no_overshoot (k tgt T0 : ℝ) (hk : 0 < k) (i j : ℕ)
    (hij : i ≤ j) (hj : j < MeatTemp.SIM_STEPS) :
    |(odeint T0 (linspace 0 MeatTemp.SIM_LEN MeatTemp.SIM_STEPS) k tgt).getD j 0 - tgt|
      ≤ |(odeint T0 (linspace 0 MeatTemp.SIM_LEN MeatTemp.SIM_STEPS) k tgt).getD i 0 - tgt| ∧
    0 ≤ ((odeint T0 (linspace 0 MeatTemp.SIM_LEN MeatTemp.SIM_STEPS) k tgt).getD i 0 - tgt)
        * (T0 - tgt) ∧
    0 ≤ ((odeint T0 (linspace 0 MeatTemp.SIM_LEN MeatTemp.SIM_STEPS) k tgt).getD j 0 - tgt)
        * (T0 - tgt) := by
  have hi : i < MeatTemp.SIM_STEPS := Nat.lt_of_le_of_lt hij hj
  have sampleEq : ∀ m, m < MeatTemp.SIM_STEPS →
      (odeint T0 (linspace 0 MeatTemp.SIM_LEN MeatTemp.SIM_STEPS) k tgt).getD m 0
        = tgt + (T0 - tgt) * Real.exp (-k * ((10000 : ℝ) * m / 999)) := by
    intro m hm
    rw [odeint]
    have hlen : m < (linspace 0 MeatTemp.SIM_LEN MeatTemp.SIM_STEPS).length := by
      rw [linspace_length]; exact hm
    rw [getD_of_lt _ _ _ (by rw [List.length_map]; exact hlen), List.getElem_map,
      ← getD_of_lt _ (0 : ℝ) _ hlen, linspace_getD _ _ _ _ hm, coolingSol]
    simp only [MeatTemp.SIM_LEN, MeatTemp.SIM_STEPS]
    norm_num
  have hij' : (i : ℝ) ≤ (j : ℝ) := by exact_mod_cast hij
  have hle : (10000 : ℝ) * (i : ℝ) / 999 ≤ 10000 * (j : ℝ) / 999 := by gcongr
  have hexp : Real.exp (-k * (10000 * (j : ℝ) / 999))
      ≤ Real.exp (-k * (10000 * (i : ℝ) / 999)) := by
    apply Real.exp_le_exp.2
    nlinarith [hle, hk]
  rw [sampleEq i hi, sampleEq j hj]
  have habs : ∀ x : ℝ, |tgt + (T0 - tgt) * Real.exp x - tgt| = |T0 - tgt| * Real.exp x := by
    intro x
    rw [show tgt + (T0 - tgt) * Real.exp x - tgt = (T0 - tgt) * Real.exp x by ring,
      abs_mul, abs_of_pos (Real.exp_pos x)]
  refine ⟨?_, ?_, ?_⟩
  · rw [habs, habs]
    exact mul_le_mul_of_nonneg_left hexp (abs_nonneg _)
  · nlinarith [Real.exp_pos (-k * (10000 * (i : ℝ) / 999)), sq_nonneg (T0 - tgt)]
  · nlinarith [Real.exp_pos (-k * (10000 * (j : ℝ) / 999)), sq_nonneg (T0 - tgt)]

/-- C8 witness: monotone convergence applied at `k = 1`, `target = 0`,
`T0 = 5`, samples 0 and 1. -/
theorem C8_monotone_no_overshoot_witness :
    (0 : ℝ) < 1 ∧ (0 : ℕ) ≤ 1 ∧ 1 < MeatTemp.SIM_STEPS ∧
    |(odeint 5 (linspace 0 MeatTemp.SIM_LEN MeatTemp.SIM_STEPS) 1 0).getD 1 0 - 0|
      ≤ |(odeint 5 (linspace 0 MeatTemp.SIM_LEN MeatTemp.SIM_STEPS) 1 0).getD 0 0 - 0| :=
  ⟨by norm_num, by norm_num, by norm_num [MeatTemp.SIM_STEPS],
    (C8_monotone_no_overshoot 1 0 5 (by norm_num) 0 1 (by norm_num)
      (by norm_num [MeatTemp.SIM_STEPS])).1⟩

/-! ### Claim C10 -/

/-- C10: whenever a simulator reports a reached time, that time is exactly a
sample time `i * SIM_LEN / (SIM_STEPS - 1)` for some `i < SIM_STEPS`, hence
lies in `[0, SIM_LEN]` — never negative, never past the horizon — in both
variants. -/
theorem C10_reported_time_in_range (a b c : ℝ) :
    ((MeatTemp.sim_temp_change a b c).2.2 = none ∨
      ∃ i : ℕ, i < MeatTemp.SIM_STEPS ∧
        (MeatTemp.sim_temp_change a b c).2.2
          = some ((i : ℝ) * MeatTemp.SIM_LEN / ((MeatTemp.SIM_STEPS : ℝ) - 1)) ∧
        0 ≤ (i : ℝ) * MeatTemp.SIM_LEN / ((MeatTemp.SIM_STEPS : ℝ) - 1) ∧
        (i : ℝ) * MeatTemp.SIM_LEN / ((MeatTemp.SIM_STEPS : ℝ) - 1) ≤ MeatTemp.SIM_LEN) ∧
    ((ThawMaster.sim_temp_change a b).2.2 = none ∨
      ∃ i : ℕ, i < ThawMaster.SIM_STEPS ∧
        (ThawMaster.sim_temp_change a b).2.2
          = some ((i : ℝ) * ThawMaster.SIM_LEN / ((ThawMaster.SIM_STEPS : ℝ) - 1)) ∧
        0 ≤ (i : ℝ) * ThawMaster.SIM_LEN / ((ThawMaster.SIM_STEPS : ℝ) - 1) ∧
        (i : ℝ) * ThawMaster.SIM_LEN / ((ThawMaster.SIM_STEPS : ℝ) - 1)
          ≤ ThawMaster.SIM_LEN) := by
  constructor
  · cases hcell : (MeatTemp.sim_temp_change a b c).2.2 with
    | none => exact Or.inl rfl
    | some u =>
      obtain ⟨i, hi, hval, h0, hL⟩ := meat_time_bounds a b c u hcell
      rw [hval] at h0 hL
      exact Or.inr ⟨i, hi, by rw [hval], h0, hL⟩
  · cases hcell : (ThawMaster.sim_temp_change a b).2.2 with
    | none => exact Or.inl rfl
    | some u =>
      obtain ⟨i, hi, hval, h0, hL⟩ := thaw_time_bounds a b u hcell
      rw [hval] at h0 hL
      exact Or.inr ⟨i, hi, by rw [hval], h0, hL⟩

end CoolSim

